import Mathlib

/-!
# LiveCandles — verification of the tick-to-candle aggregation core

Shallow embedding of `src/app/page.tsx` (the only source file).

Conventions of the embedding:
* JS numbers that are always integral in the program (UNIX timestamps in
  seconds, bucket starts, timezone offsets) are modelled as `ℤ`.
* Prices coming from the live JSON feed are finite numbers (JSON cannot
  encode NaN/Infinity), modelled as `ℚ`; the only operations the code
  performs on them are `Math.max`, `Math.min` and comparisons, which are
  exact on floats, so `ℚ` is a faithful carrier.
* Values produced by JS `parseFloat` / `Date.parse` can be NaN; those are
  modelled as `Option`-typed values (`none` = NaN), since in JS a failed
  parse yields the NaN *value* and never throws.
* The ambient timezone offset (`new Date().getTimezoneOffset()`, whole
  minutes) is threaded as an explicit parameter `offsetMinutes : ℤ`.
-/

namespace LiveCandles

/-- `CANDLE_INTERVAL = 60` — interval in seconds (1-minute candles). -/
def CANDLE_INTERVAL : ℤ := 60

/-- `bucketStart(timestampSeconds, intervalSeconds)` from the spec contract:
`Math.floor(timestamp / interval) * interval`. `Int.fdiv` is exactly JS
`Math.floor` of the real quotient on integer arguments. -/
def bucketStart (t I : ℤ) : ℤ := t.fdiv I * I

/-- `getCandleTimestamp` from the source: the bucketer specialised to
`CANDLE_INTERVAL`. -/
def getCandleTimestamp (timestamp : ℤ) : ℤ :=
  bucketStart timestamp CANDLE_INTERVAL

/-- `convertToLocalTime`: subtracts `new Date().getTimezoneOffset() * 60`.
`offsetMinutes` is the (integral) timezone offset in minutes at call time. -/
def convertToLocalTime (offsetMinutes utcTimestamp : ℤ) : ℤ :=
  utcTimestamp - offsetMinutes * 60

/-! ## Live tick feed: data model (`PriceEvent`, `CandleAggregator`) -/

/-- A parsed WebSocket message (`PriceEvent` in the source). Only the fields
the handler reads are carried. `price` comes from JSON, hence finite. -/
structure PriceEvent where
  event : String
  symbol : String
  timestamp : ℤ
  price : ℚ
  deriving DecidableEq

/-- The in-progress candle (`CandleAggregator` in the source). -/
structure CandleAggregator where
  timestamp : ℤ
  «open» : ℚ
  high : ℚ
  low : ℚ
  close : ℚ
  lastUpdate : ℤ
  deriving DecidableEq

/-- A candlestick point handed to the chart (`CandlestickData` of
lightweight-charts, as populated by the live path: `time` is an integer). -/
structure CandlestickData where
  time : ℤ
  «open» : ℚ
  high : ℚ
  low : ℚ
  close : ℚ
  deriving DecidableEq

/-- Modelled from the spec: the Series Sink's `upsertLast` (§4.4) — the
`candleSeries.update` call goes to lightweight-charts, whose code is not in
this repository. "If the series is non-empty and its last entry's
`bucketStart` equals `candle.bucketStart`, overwrite that entry in place;
otherwise append." -/
def upsertLast (series : List CandlestickData) (c : CandlestickData) :
    List CandlestickData :=
  match series.getLast? with
  | none => [c]
  | some last => if last.time = c.time then series.dropLast ++ [c]
                 else series ++ [c]

/-- The mutable state the `ws.onmessage` handler touches: the ref
`currentCandleRef.current`, the React state `currentPrice`, and the chart
series reachable through `candleSeriesRef`. -/
structure WsState where
  currentCandle : Option CandleAggregator
  currentPrice : Option ℚ
  series : List CandlestickData
  deriving DecidableEq

/-- `ws.onmessage` (source lines 251–300). Returns the new state and the
`CandlestickData` passed to `candleSeries.update` (`none` when no update is
issued). `offsetMinutes` feeds `convertToLocalTime`. -/
def onmessage (offsetMinutes : ℤ) (st : WsState) (data : PriceEvent) :
    WsState × Option CandlestickData :=
  if data.event = "price" ∧ data.symbol = "BTC/USD" then
    let price := data.price
    let timestamp := data.timestamp
    let candleTime := getCandleTimestamp timestamp
    let cur : CandleAggregator :=
      match st.currentCandle with
      | none =>
          -- New candle
          ⟨candleTime, price, price, price, price, timestamp⟩
      | some c =>
          if c.timestamp ≠ candleTime then
            -- New candle
            ⟨candleTime, price, price, price, price, timestamp⟩
          else
            -- Update existing candle
            { c with high := max c.high price
                     low := min c.low price
                     close := price
                     lastUpdate := timestamp }
    let candleData : CandlestickData :=
      ⟨convertToLocalTime offsetMinutes candleTime, cur.open, cur.high,
        cur.low, cur.close⟩
    (⟨some cur, some price, upsertLast st.series candleData⟩, some candleData)
  else
    (st, none)

/-- The single-threaded event loop (§5): messages are processed one at a
time, in arrival order. -/
def processTicks (offsetMinutes : ℤ) (st : WsState) (events : List PriceEvent) :
    WsState :=
  events.foldl (fun s e => (onmessage offsetMinutes s e).1) st

/-! ## Sort + dedup of the historical series (source lines 173–182)

`candles.sort((a, b) => a.time - b.time)` followed by
`candles.filter((item, index, self) => index === self.findIndex(t => t.time === item.time))`.

JS `Array.prototype.sort` is a stable sort (required since ES2019), and any
two stable sorts by the same key produce the same list, so we model it with
`List.insertionSort` on the key order (mathlib's `orderedInsert` places each
element before existing equal-key elements while `insertionSort` folds from
the right, which together preserve the input order of equal keys).
Two NaN subtleties of the source are modelled explicitly:
* the filter compares times with `===`, and `NaN === NaN` is false in JS,
  so every NaN-`time` record is dropped by the dedup filter no matter where
  the sort placed it — `jsKeepFirst` therefore takes the strict-equality
  test as an explicit `eqb` parameter (`jsStrictEq` on times);
* a NaN `time` makes the numeric sort comparator inconsistent, so the
  resulting *order* is implementation-defined (the drop decision above is
  not: it is position-independent); theorems about the sorted order
  therefore carry an "all timestamps parsed" hypothesis, on which the
  stable-sort model is exact. -/

section SortDedup

variable {α : Type} {β : Type} [LinearOrder β]

/-- `arr.sort((a, b) => key(a) - key(b))`: stable sort ascending by key. -/
def jsSortByKey (key : α → β) (l : List α) : List α :=
  List.insertionSort (fun a b => key a ≤ key b) l

/-- `arr.filter((item, index, self) => index === self.findIndex(t => key(t) === key(item)))`,
with the JS strict-equality test on keys passed explicitly as `eqb`: an
element is kept exactly when its index is the first index whose key
compares `eqb`-equal to its own. An element whose key is `eqb`-unequal to
itself (NaN) is always dropped: JS `findIndex` returns `-1` and
`List.findIdx` returns `l.length`, neither of which equals a valid index,
so the kept/dropped decision coincides. -/
def jsKeepFirst (eqb : β → β → Bool) (key : α → β) (l : List α) : List α :=
  (l.enum.filter
    (fun p => l.findIdx (fun t => eqb (key t) (key p.2)) = p.1)).map Prod.snd

/-- Lines 173–177 (and 178–182): sort ascending by key, then keep the first
`eqb`-occurrence of each key. -/
def jsSortDedup (eqb : β → β → Bool) (key : α → β) (l : List α) : List α :=
  jsKeepFirst eqb key (jsSortByKey key l)

/-- Reference dedup with ideal (Lean) key equality; `jsKeepFirst` agrees
with it whenever `eqb` is lawful on the list's keys (no NaN present) —
`jsKeepFirst_lawful_eq` below. -/
def keepFirstByKey (key : α → β) (l : List α) : List α :=
  (l.enum.filter
    (fun p => l.findIdx (fun t => key t = key p.2) = p.1)).map Prod.snd

/-- Reference sort + dedup with ideal key equality. -/
def sortDedupByKey (key : α → β) (l : List α) : List α :=
  keepFirstByKey key (jsSortByKey key l)

end SortDedup

/-! ## Historical load (`loadHistoricalData`, source lines 120–201)

JS `parseFloat` and `Date.parse` are runtime builtins, not repository code;
they are threaded as parameters. The essential semantics the embedding
relies on: both are total functions that return the NaN *value* on
unparsable input and never throw. NaN is `none`. -/

/-- A raw historical record (`TwelveDataCandle` in the source): a timestamp
string and string-encoded OHLCV fields. -/
structure TwelveDataCandle where
  datetime : String
  «open» : String
  high : String
  low : String
  close : String
  volume : String
  deriving DecidableEq

/-- A JS number that may be NaN (result of `parseFloat`): `none` = NaN. -/
abbrev JsNum := Option ℚ

/-- `Math.floor(Date.parse(v.datetime + "Z") / 1000)` then
`convertToLocalTime`: the chart `time` of a historical record. `dateParse`
models `Date.parse` (milliseconds, `none` = NaN); NaN propagates through
`Math.floor`, division and subtraction. `WithBot ℤ` (⊥ = NaN) so the sort
key order is available. -/
def histTime (dateParse : String → Option ℤ) (offsetMinutes : ℤ)
    (datetime : String) : WithBot ℤ :=
  match dateParse (datetime ++ "Z") with
  | none => (⊥ : WithBot ℤ)
  | some ms => ((convertToLocalTime offsetMinutes (ms.fdiv 1000) : ℤ) : WithBot ℤ)

/-- A mapped historical candle (`CandlestickData` as built on lines
140–153; unlike the live path, its fields can be NaN). -/
structure HistCandle where
  time : WithBot ℤ
  «open» : JsNum
  high : JsNum
  low : JsNum
  close : JsNum
  deriving DecidableEq

/-- A mapped volume bar (`HistogramData`, lines 155–171). -/
structure HistVolume where
  time : WithBot ℤ
  value : JsNum
  color : String
  deriving DecidableEq

/-- JS `===` on possibly-NaN times (`⊥` = NaN): NaN compares unequal to
everything, itself included; finite values compare by value. This is the
`t.time === item.time` test of the dedup filter (lines 176, 181). -/
def jsStrictEq (a b : WithBot ℤ) : Bool :=
  match a, b with
  | some a, some b => decide (a = b)
  | _, _ => false

/-- JS `>=` on possibly-NaN numbers: any comparison with NaN is false. -/
def jsGe (a b : JsNum) : Bool :=
  match a, b with
  | some x, some y => decide (y ≤ x)
  | _, _ => false

/-- `data.values.map(...)` building candles (lines 140–153). -/
def histCandles (dateParse : String → Option ℤ)
    (jsParseFloat : String → JsNum) (offsetMinutes : ℤ)
    (vs : List TwelveDataCandle) : List HistCandle :=
  vs.map fun v =>
    ⟨histTime dateParse offsetMinutes v.datetime, jsParseFloat v.open,
      jsParseFloat v.high, jsParseFloat v.low, jsParseFloat v.close⟩

/-- `data.values.map(...)` building volume bars (lines 155–171): color is
`up` iff `close >= open` (false when either is NaN). -/
def histVolumes (dateParse : String → Option ℤ)
    (jsParseFloat : String → JsNum) (offsetMinutes : ℤ)
    (vs : List TwelveDataCandle) : List HistVolume :=
  vs.map fun v =>
    ⟨histTime dateParse offsetMinutes v.datetime, jsParseFloat v.volume,
      if jsGe (jsParseFloat v.close) (jsParseFloat v.open)
      then "rgba(38, 166, 154, 0.5)" else "rgba(239, 83, 80, 0.5)"⟩

/-- Lines 140–177: map, sort ascending by `time`, deduplicate keeping the
first occurrence of each `time`. -/
def normalizeCandles (dateParse : String → Option ℤ)
    (jsParseFloat : String → JsNum) (offsetMinutes : ℤ)
    (vs : List TwelveDataCandle) : List HistCandle :=
  jsSortDedup jsStrictEq (·.time)
    (histCandles dateParse jsParseFloat offsetMinutes vs)

/-- Lines 155–182: same for the volume bars. -/
def normalizeVolumes (dateParse : String → Option ℤ)
    (jsParseFloat : String → JsNum) (offsetMinutes : ℤ)
    (vs : List TwelveDataCandle) : List HistVolume :=
  jsSortDedup jsStrictEq (·.time)
    (histVolumes dateParse jsParseFloat offsetMinutes vs)

/-- The decoded JSON body of the historical response: either a `values`
array or an error payload carrying `message` / `code`. `none` = field
absent. -/
structure ApiResponse where
  values : Option (List TwelveDataCandle)
  message : Option String
  code : Option String

/-- JS `a || b` for an optional string `a`: falsy (absent or empty) falls
through to `b`. -/
def jsOr (a : Option String) (b : String) : String :=
  match a with
  | some s => if s = "" then b else s
  | none => b

/-- The observable outcome of `loadHistoricalData`: the React states it
sets and the arguments of the `setData` calls it issues (`none` = the call
was not made, so the existing series content is untouched). -/
structure HistLoadOutcome where
  status : String
  errorMessage : Option String
  candlesSet : Option (List HistCandle)
  volumesSet : Option (List HistVolume)
  isHistoricalLoaded : Bool
  currentPrice : Option JsNum
  deriving DecidableEq

/-- `loadHistoricalData` (lines 120–201) after a successfully decoded JSON
body. `!data.values || data.values.length === 0` takes the error branch:
status `"Error"`, `errorMessage = data.message || data.code || "No data
available"`, and neither `setData` call is made. Otherwise both sequences
are normalized, but only `candleSeries.setData(candles)` is issued — the
`volumeSeries.setData(volumes)` call is commented out in the source (line
185). -/
def loadHistoricalData (dateParse : String → Option ℤ)
    (jsParseFloat : String → JsNum) (offsetMinutes : ℤ)
    (resp : ApiResponse) : HistLoadOutcome :=
  match resp.values with
  | none =>
      ⟨"Error", some (jsOr resp.message (jsOr resp.code "No data available")),
        none, none, false, none⟩
  | some vs =>
      if vs.length = 0 then
        ⟨"Error", some (jsOr resp.message (jsOr resp.code "No data available")),
          none, none, false, none⟩
      else
        let candles := normalizeCandles dateParse jsParseFloat offsetMinutes vs
        ⟨"Connecting to live data...", none,
          some candles,
          none,  -- volumeSeries.setData(volumes) is commented out
          true,
          (candles.getLast?).map (·.close)⟩

/-- The spec's candle invariant (§3):
`low <= min(open, close) <= max(open, close) <= high`, and `bucketStart`
(the `timestamp` field) is a multiple of the interval width. -/
def CandleInv (c : CandleAggregator) : Prop :=
  c.low ≤ min c.open c.close ∧ min c.open c.close ≤ max c.open c.close ∧
    max c.open c.close ≤ c.high ∧ CANDLE_INTERVAL ∣ c.timestamp

/-- Models JS `Date.parse` on the concrete datetime strings appearing in
the examples below (values in UTC milliseconds); any other string parses to
NaN (`none`). `Date.parse` never throws. -/
def dateParseM (s : String) : Option ℤ :=
  if s = "2024-01-01 00:00:00Z" then some 1704067200000
  else if s = "2024-01-01 00:01:00Z" then some 1704067260000
  else if s = "2024-01-01 00:02:00Z" then some 1704067320000
  else none

/-- Models JS `parseFloat` on the concrete strings appearing in the
examples below; a string without a leading number (e.g. `"oops"`) parses
to NaN (`none`). `parseFloat` never throws. -/
def parseFloatM (s : String) : JsNum :=
  if s = "1" then some 1
  else if s = "2" then some 2
  else if s = "3" then some 3
  else if s = "4" then some 4
  else if s = "7" then some 7
  else none

/-! ## Lemmas about the stable sort + dedup -/

section SortDedupLemmas

variable {α : Type} {β : Type} [LinearOrder β]

theorem keepFirstByKey_nil (key : α → β) : keepFirstByKey key ([] : List α) = [] :=
  rfl

theorem keepFirstByKey_cons (key : α → β) (x : α) (xs : List α) :
    keepFirstByKey key (x :: xs) =
      x :: (keepFirstByKey key xs).filter (fun c => key c ≠ key x) := by
  unfold keepFirstByKey
  rw [List.enum_cons']
  rw [List.filter_cons]
  have hx : (decide ((x :: xs).findIdx (fun t => decide (key t = key x)) = 0)) = true := by
    simp [List.findIdx_cons]
  rw [if_pos hx]
  rw [List.filter_map, List.map_cons, List.map_map]
  have hsnd : Prod.snd ∘ Prod.map (· + 1) (id : α → α) = Prod.snd := by
    funext p; cases p; rfl
  rw [hsnd]
  congr 1
  rw [List.filter_map, List.filter_filter]
  congr 1
  apply List.filter_congr
  intro p _
  rcases p with ⟨i, c⟩
  simp only [Function.comp_apply, Prod.map_apply, id_eq, List.findIdx_cons,
    Bool.and_comm]
  by_cases h : key x = key c
  · simp [h, Ne, eq_comm]
  · have h' : (decide (key x = key c)) = false := by simpa using h
    simp only [h', cond_false]
    have h'' : ¬ key c = key x := fun hc => h hc.symm
    simp [h'', Nat.succ_eq_add_one]

theorem find?_filter_of_imp {p q : α → Bool}
    (hpq : ∀ a, p a = true → q a = true) :
    ∀ l : List α, (l.filter q).find? p = l.find? p := by
  intro l
  induction l with
  | nil => rfl
  | cons a as ih =>
      by_cases hq : q a = true
      · rw [List.filter_cons_of_pos hq]
        by_cases hp : p a = true
        · rw [List.find?_cons_of_pos _ hp, List.find?_cons_of_pos _ hp]
        · rw [List.find?_cons_of_neg _ (by simpa using hp),
            List.find?_cons_of_neg _ (by simpa using hp)]
          exact ih
      · have hp : ¬ p a = true := fun h => hq (hpq a h)
        rw [List.filter_cons_of_neg (by simpa using hq),
          List.find?_cons_of_neg _ (by simpa using hp)]
        exact ih

theorem keepFirstByKey_sublist (key : α → β) :
    ∀ l : List α, (keepFirstByKey key l).Sublist l := by
  intro l
  induction l with
  | nil => exact List.Sublist.refl _
  | cons x xs ih =>
      rw [keepFirstByKey_cons]
      exact List.Sublist.cons₂ x ((List.filter_sublist _).trans ih)

theorem find?_keepFirstByKey (key : α → β) (t : β) :
    ∀ l : List α,
      (keepFirstByKey key l).find? (fun c => key c = t) =
        l.find? (fun c => key c = t) := by
  intro l
  induction l with
  | nil => rfl
  | cons x xs ih =>
      rw [keepFirstByKey_cons]
      by_cases hx : key x = t
      · rw [List.find?_cons_of_pos _ (by simpa using hx),
          List.find?_cons_of_pos _ (by simpa using hx)]
      · rw [List.find?_cons_of_neg _ (by simpa using hx),
          List.find?_cons_of_neg _ (by simpa using hx)]
        rw [find?_filter_of_imp]
        · exact ih
        · intro a ha
          have : key a = t := by simpa using ha
          simpa using fun h : key a = key x => hx (h ▸ this)

theorem pairwise_keepFirstByKey (key : α → β) :
    ∀ l : List α, l.Sorted (fun a b => key a ≤ key b) →
      (keepFirstByKey key l).Pairwise (fun a b => key a < key b) := by
  intro l
  induction l with
  | nil => intro _; exact List.Pairwise.nil
  | cons x xs ih =>
      intro hs
      rw [List.sorted_cons] at hs
      rw [keepFirstByKey_cons]
      refine List.Pairwise.cons ?_ (List.Pairwise.filter _ (ih hs.2))
      intro y hy
      have hmem : y ∈ keepFirstByKey key xs := (List.mem_filter.mp hy).1
      have hne : key y ≠ key x := by
        have := (List.mem_filter.mp hy).2; simpa using this
      have hle : key x ≤ key y :=
        hs.1 y ((keepFirstByKey_sublist key xs).subset hmem)
      exact lt_of_le_of_ne hle fun h => hne h.symm

theorem find?_orderedInsert_of_neg {r : α → α → Prop} [DecidableRel r]
    {p : α → Bool} {x : α} (hx : p x = false) :
    ∀ l : List α,
      (List.orderedInsert r x l).find? p = l.find? p := by
  intro l
  induction l with
  | nil => simp [List.orderedInsert, List.find?, hx]
  | cons y ys ih =>
      rw [List.orderedInsert]
      by_cases hr : r x y
      · rw [if_pos hr, List.find?_cons_of_neg _ (by simp [hx])]
      · rw [if_neg hr]
        by_cases hpy : p y = true
        · rw [List.find?_cons_of_pos _ hpy, List.find?_cons_of_pos _ hpy]
        · rw [List.find?_cons_of_neg _ (by simpa using hpy),
            List.find?_cons_of_neg _ (by simpa using hpy)]
          exact ih

theorem find?_orderedInsert_of_key (key : α → β) {t : β} {x : α}
    (hx : key x = t) :
    ∀ l : List α,
      (List.orderedInsert (fun a b => key a ≤ key b) x l).find?
          (fun c => key c = t) = some x := by
  intro l
  induction l with
  | nil => simp [List.orderedInsert, List.find?, hx]
  | cons y ys ih =>
      rw [List.orderedInsert]
      by_cases hr : key x ≤ key y
      · rw [if_pos hr, List.find?_cons_of_pos _ (by simpa using hx)]
      · rw [if_neg hr]
        have hyt : ¬ key y = t := by
          intro h
          exact hr (le_of_eq (hx.trans h.symm))
        rw [List.find?_cons_of_neg _ (by simpa using hyt)]
        exact ih

theorem find?_jsSortByKey (key : α → β) (t : β) :
    ∀ l : List α,
      (jsSortByKey key l).find? (fun c => key c = t) =
        l.find? (fun c => key c = t) := by
  intro l
  induction l with
  | nil => rfl
  | cons x xs ih =>
      show (List.orderedInsert _ x (jsSortByKey key xs)).find? _ = _
      by_cases hx : key x = t
      · rw [find?_orderedInsert_of_key key hx,
          List.find?_cons_of_pos _ (by simpa using hx)]
      · rw [find?_orderedInsert_of_neg (by simpa using hx),
          List.find?_cons_of_neg _ (by simpa using hx)]
        exact ih

theorem sorted_jsSortByKey (key : α → β) (l : List α) :
    (jsSortByKey key l).Sorted (fun a b => key a ≤ key b) := by
  haveI : IsTotal α (fun a b => key a ≤ key b) := ⟨fun a b => le_total _ _⟩
  haveI : IsTrans α (fun a b => key a ≤ key b) :=
    ⟨fun _ _ _ h1 h2 => le_trans h1 h2⟩
  exact List.sorted_insertionSort _ l

theorem perm_jsSortByKey (key : α → β) (l : List α) :
    (jsSortByKey key l).Perm l :=
  List.perm_insertionSort _ l

/-- The deduplicated, sorted series is strictly increasing in the key. -/
theorem sortDedupByKey_pairwise_lt (key : α → β) (l : List α) :
    (sortDedupByKey key l).Pairwise (fun a b => key a < key b) :=
  pairwise_keepFirstByKey key _ (sorted_jsSortByKey key l)

/-- Stability: for every key value, the element the sorted-and-deduplicated
series retains for that key is the first element of the input carrying that
key (earliest original array index). -/
theorem sortDedupByKey_find? (key : α → β) (t : β) (l : List α) :
    (sortDedupByKey key l).find? (fun c => key c = t) =
      l.find? (fun c => key c = t) := by
  unfold sortDedupByKey
  rw [find?_keepFirstByKey, find?_jsSortByKey]

theorem findIdx_congr {p q : α → Bool} :
    ∀ l : List α, (∀ a ∈ l, p a = q a) → l.findIdx p = l.findIdx q := by
  intro l
  induction l with
  | nil => intro _; rfl
  | cons x xs ih =>
      intro h
      rw [List.findIdx_cons, List.findIdx_cons,
        h x (List.mem_cons_self x xs),
        ih (fun a ha => h a (List.mem_cons_of_mem x ha))]

/-- On a list whose keys `eqb` compares like ideal equality (no NaN), the
source's filter coincides with the ideal-equality dedup. -/
theorem jsKeepFirst_lawful_eq (eqb : β → β → Bool) (key : α → β)
    (l : List α)
    (hl : ∀ a ∈ l, ∀ b ∈ l, eqb (key a) (key b) = decide (key a = key b)) :
    jsKeepFirst eqb key l = keepFirstByKey key l := by
  unfold jsKeepFirst keepFirstByKey
  congr 1
  apply List.filter_congr
  intro p hp
  have hp2 : p.2 ∈ l := by
    have := List.mem_map_of_mem Prod.snd hp
    rwa [List.enum_map_snd] at this
  rw [findIdx_congr l (fun a ha => hl a ha p.2 hp2)]

/-- Same, through the sort (the sorted list is a permutation). -/
theorem jsSortDedup_lawful_eq (eqb : β → β → Bool) (key : α → β)
    (l : List α)
    (hl : ∀ a ∈ l, ∀ b ∈ l, eqb (key a) (key b) = decide (key a = key b)) :
    jsSortDedup eqb key l = sortDedupByKey key l := by
  unfold jsSortDedup sortDedupByKey
  apply jsKeepFirst_lawful_eq
  intro a ha b hb
  exact hl a ((perm_jsSortByKey key l).mem_iff.mp ha)
    b ((perm_jsSortByKey key l).mem_iff.mp hb)

omit [LinearOrder β] in
/-- Everything the filter retains compares `eqb`-equal to itself; hence a
NaN-keyed element (`eqb` irreflexive at its key) is never retained. -/
theorem mem_jsKeepFirst_self_eqb (eqb : β → β → Bool) (key : α → β)
    {l : List α} {c : α} (hc : c ∈ jsKeepFirst eqb key l) :
    eqb (key c) (key c) = true := by
  unfold jsKeepFirst at hc
  obtain ⟨p, hmem, hsnd⟩ := List.mem_map.mp hc
  obtain ⟨i, c'⟩ := p
  dsimp only at hsnd
  subst hsnd
  have h1 := (List.mem_filter.mp hmem).1
  have h2 := (List.mem_filter.mp hmem).2
  have hidx : l.findIdx (fun t => eqb (key t) (key c')) = i := by
    simpa using h2
  have hget : l[i]? = some c' := List.mem_enum_iff_getElem?.mp h1
  exact @List.findIdx_of_getElem?_eq_some _ (fun t => eqb (key t) (key c'))
    c' l (hidx ▸ hget)

end SortDedupLemmas

/-! ## `jsStrictEq` facts and the normalizer bridge -/

theorem jsStrictEq_bot_left (b : WithBot ℤ) : jsStrictEq ⊥ b = false := by
  cases b with
  | bot => rfl
  | coe y => rfl

theorem jsStrictEq_of_ne_bot {a b : WithBot ℤ} (ha : a ≠ ⊥) (hb : b ≠ ⊥) :
    jsStrictEq a b = decide (a = b) := by
  cases a with
  | bot => exact absurd rfl ha
  | coe x =>
      cases b with
      | bot => exact absurd rfl hb
      | coe y =>
          by_cases h : x = y
          · subst h; simp [jsStrictEq]
          · have h2 : ¬ ((x : WithBot ℤ) = (y : WithBot ℤ)) := by
              exact_mod_cast h
            simp [jsStrictEq, h, h2]

/-- When every datetime of the batch parses, every mapped candle's time is
an actual number. -/
theorem histCandles_time_ne_bot (dateParse : String → Option ℤ)
    (jsParseFloat : String → JsNum) (offsetMinutes : ℤ)
    (vs : List TwelveDataCandle)
    (hparse : ∀ v ∈ vs, dateParse (v.datetime ++ "Z") ≠ none) :
    ∀ a ∈ histCandles dateParse jsParseFloat offsetMinutes vs,
      a.time ≠ (⊥ : WithBot ℤ) := by
  intro a ha
  obtain ⟨v, hv, rfl⟩ := List.mem_map.mp ha
  dsimp only
  unfold histTime
  cases hdp : dateParse (v.datetime ++ "Z") with
  | none => exact absurd hdp (hparse v hv)
  | some ms => exact WithBot.coe_ne_bot

/-- Likewise for the mapped volume bars. -/
theorem histVolumes_time_ne_bot (dateParse : String → Option ℤ)
    (jsParseFloat : String → JsNum) (offsetMinutes : ℤ)
    (vs : List TwelveDataCandle)
    (hparse : ∀ v ∈ vs, dateParse (v.datetime ++ "Z") ≠ none) :
    ∀ a ∈ histVolumes dateParse jsParseFloat offsetMinutes vs,
      a.time ≠ (⊥ : WithBot ℤ) := by
  intro a ha
  obtain ⟨v, hv, rfl⟩ := List.mem_map.mp ha
  dsimp only
  unfold histTime
  cases hdp : dateParse (v.datetime ++ "Z") with
  | none => exact absurd hdp (hparse v hv)
  | some ms => exact WithBot.coe_ne_bot

/-- On an all-parsed batch the normalizer equals the ideal-equality
sort + dedup. -/
theorem normalizeCandles_eq_ideal (dateParse : String → Option ℤ)
    (jsParseFloat : String → JsNum) (offsetMinutes : ℤ)
    (vs : List TwelveDataCandle)
    (hparse : ∀ v ∈ vs, dateParse (v.datetime ++ "Z") ≠ none) :
    normalizeCandles dateParse jsParseFloat offsetMinutes vs =
      sortDedupByKey (·.time)
        (histCandles dateParse jsParseFloat offsetMinutes vs) := by
  unfold normalizeCandles
  apply jsSortDedup_lawful_eq
  intro a ha b hb
  exact jsStrictEq_of_ne_bot
    (histCandles_time_ne_bot dateParse jsParseFloat offsetMinutes vs hparse a ha)
    (histCandles_time_ne_bot dateParse jsParseFloat offsetMinutes vs hparse b hb)

/-- Likewise for the volume bars. -/
theorem normalizeVolumes_eq_ideal (dateParse : String → Option ℤ)
    (jsParseFloat : String → JsNum) (offsetMinutes : ℤ)
    (vs : List TwelveDataCandle)
    (hparse : ∀ v ∈ vs, dateParse (v.datetime ++ "Z") ≠ none) :
    normalizeVolumes dateParse jsParseFloat offsetMinutes vs =
      sortDedupByKey (·.time)
        (histVolumes dateParse jsParseFloat offsetMinutes vs) := by
  unfold normalizeVolumes
  apply jsSortDedup_lawful_eq
  intro a ha b hb
  exact jsStrictEq_of_ne_bot
    (histVolumes_time_ne_bot dateParse jsParseFloat offsetMinutes vs hparse a ha)
    (histVolumes_time_ne_bot dateParse jsParseFloat offsetMinutes vs hparse b hb)

/-- Every candle the normalizer retains has a parsed (non-NaN) time: a
NaN-time record never survives the `===`-based dedup filter, wherever the
implementation-defined sort placed it. -/
theorem normalizeCandles_time_ne_bot (dateParse : String → Option ℤ)
    (jsParseFloat : String → JsNum) (offsetMinutes : ℤ)
    (vs : List TwelveDataCandle) :
    ∀ c ∈ normalizeCandles dateParse jsParseFloat offsetMinutes vs,
      c.time ≠ (⊥ : WithBot ℤ) := by
  intro c hc hbot
  have hself := mem_jsKeepFirst_self_eqb jsStrictEq (·.time)
    (l := jsSortByKey (·.time)
      (histCandles dateParse jsParseFloat offsetMinutes vs)) hc
  dsimp only at hself
  rw [hbot, jsStrictEq_bot_left] at hself
  exact Bool.false_ne_true hself


/-! ## General facts about the bucketer -/

theorem bucketStart_eq_sub_emod {t I : ℤ} (hI : 0 ≤ I) :
    bucketStart t I = t - t % I := by
  unfold bucketStart
  rw [Int.fdiv_eq_ediv _ hI, Int.emod_def]
  ring

theorem dvd_bucketStart (t I : ℤ) : I ∣ bucketStart t I :=
  ⟨t.fdiv I, mul_comm _ _⟩

theorem dvd_getCandleTimestamp (t : ℤ) :
    CANDLE_INTERVAL ∣ getCandleTimestamp t :=
  dvd_bucketStart t CANDLE_INTERVAL

/-! ## The claims -/

/-- C2: for every non-negative integer timestamp `t` and positive interval
`I`, the bucketing function returns `floor(t / I) * I` (its definition);
the result is a multiple of `I`, satisfies
`bucketStart(t,I) <= t < bucketStart(t,I) + I`, and `getCandleTimestamp`
is this function at `I = CANDLE_INTERVAL = 60`. Determinism, purity and
totality hold because `bucketStart` is a total Lean function of its two
arguments. -/
theorem C2_bucketStart_contract (t I : ℤ) (_ht : 0 ≤ t) (hI : 0 < I) :
    I ∣ bucketStart t I ∧ bucketStart t I ≤ t ∧ t < bucketStart t I + I ∧
      getCandleTimestamp t = bucketStart t 60 := by
  have hmod := bucketStart_eq_sub_emod (t := t) (le_of_lt hI)
  have h1 : 0 ≤ t % I := Int.emod_nonneg t (ne_of_gt hI)
  have h2 : t % I < I := Int.emod_lt_of_pos t hI
  exact ⟨dvd_bucketStart t I, by omega, by omega, rfl⟩

/-- Witness for C2 at `t = 125`, `I = 60` (bucket `120`). -/
theorem C2_bucketStart_contract_witness :
    (0 : ℤ) ≤ 125 ∧ (0 : ℤ) < 60 ∧
      ((60 : ℤ) ∣ bucketStart 125 60 ∧ bucketStart 125 60 ≤ 125 ∧
        (125 : ℤ) < bucketStart 125 60 + 60 ∧
        getCandleTimestamp 125 = bucketStart 125 60) :=
  ⟨by decide, by decide, C2_bucketStart_contract 125 60 (by decide) (by decide)⟩

/-- C10: for every UTC timestamp that is a multiple of 60,
`convertToLocalTime` of it is also a multiple of 60 (the subtracted offset
is `offsetMinutes * 60`, an integral multiple of 60); consequently every
candle time the live path passes to the chart —
`convertToLocalTime(getCandleTimestamp(ts))` — stays 60-second aligned. -/
theorem C10_convertToLocalTime_alignment (offsetMinutes t ts : ℤ)
    (h : (60 : ℤ) ∣ t) :
    (60 : ℤ) ∣ convertToLocalTime offsetMinutes t ∧
      (60 : ℤ) ∣ convertToLocalTime offsetMinutes (getCandleTimestamp ts) := by
  constructor
  · exact dvd_sub h ⟨offsetMinutes, by ring⟩
  · exact dvd_sub (dvd_getCandleTimestamp ts) ⟨offsetMinutes, by ring⟩

/-- Witness for C10 at `t = 180`, `ts = 119`, offset 41 minutes. -/
theorem C10_convertToLocalTime_alignment_witness :
    (60 : ℤ) ∣ 180 ∧
      ((60 : ℤ) ∣ convertToLocalTime 41 180 ∧
        (60 : ℤ) ∣ convertToLocalTime 41 (getCandleTimestamp 119)) :=
  ⟨by decide, C10_convertToLocalTime_alignment 41 180 119 (by decide)⟩

/-- C1: for every matching price tick, if no in-progress candle is held or
the held candle's bucket differs from the tick's bucket (newer or older
alike — the condition is plain `!==`), the aggregator state becomes a fresh
candle with `open = high = low = close = price` at the tick's bucket;
otherwise the held candle is updated in place: `high := max(high, price)`,
`low := min(low, price)`, `close := price`, `open` (and the bucket)
unchanged. -/
theorem C1_ingest_cases (offsetMinutes : ℤ) (st : WsState) (data : PriceEvent)
    (he : data.event = "price") (hs : data.symbol = "BTC/USD") :
    ((∀ c, st.currentCandle = some c →
        c.timestamp ≠ getCandleTimestamp data.timestamp) →
      (onmessage offsetMinutes st data).1.currentCandle =
        some ⟨getCandleTimestamp data.timestamp, data.price, data.price,
          data.price, data.price, data.timestamp⟩) ∧
    (∀ c, st.currentCandle = some c →
      c.timestamp = getCandleTimestamp data.timestamp →
      (onmessage offsetMinutes st data).1.currentCandle =
        some ⟨c.timestamp, c.open, max c.high data.price,
          min c.low data.price, data.price, data.timestamp⟩) := by
  unfold onmessage
  rw [if_pos ⟨he, hs⟩]
  cases hcc : st.currentCandle with
  | none =>
      refine ⟨fun _ => rfl, fun c hc => ?_⟩
      simp at hc
  | some c =>
      dsimp only
      constructor
      · intro hdiff
        have hne : c.timestamp ≠ getCandleTimestamp data.timestamp :=
          hdiff c rfl
        rw [if_pos hne]
      · intro c' hc' heq
        injection hc' with h
        subst h
        rw [if_neg (not_not_intro heq)]

/-- Witness for C1: a tick into an empty aggregator, and a tick updating a
held candle of the same bucket. -/
theorem C1_ingest_cases_witness :
    ("price" : String) = "price" ∧ ("BTC/USD" : String) = "BTC/USD" ∧
      (((∀ c, (⟨none, none, []⟩ : WsState).currentCandle = some c →
          c.timestamp ≠ getCandleTimestamp 75) →
        (onmessage 0 ⟨none, none, []⟩ ⟨"price", "BTC/USD", 75, 7⟩).1.currentCandle =
          some ⟨getCandleTimestamp 75, 7, 7, 7, 7, 75⟩) ∧
      (∀ c, (⟨none, none, []⟩ : WsState).currentCandle = some c →
        c.timestamp = getCandleTimestamp 75 →
        (onmessage 0 ⟨none, none, []⟩ ⟨"price", "BTC/USD", 75, 7⟩).1.currentCandle =
          some ⟨c.timestamp, c.open, max c.high 7, min c.low 7, 7, 75⟩)) :=
  ⟨rfl, rfl, C1_ingest_cases 0 ⟨none, none, []⟩ ⟨"price", "BTC/USD", 75, 7⟩ rfl rfl⟩

/-- C3: the in-progress candle always satisfies
`low <= min(open, close) <= max(open, close) <= high` and its bucket is a
multiple of the interval width; the invariant holds for the candle created
from a first tick (all branches that create one) and is preserved by every
tick-ingestion update. -/
theorem C3_invariant_preserved (offsetMinutes : ℤ) (st : WsState)
    (data : PriceEvent)
    (h : ∀ c, st.currentCandle = some c → CandleInv c) :
    ∀ c', (onmessage offsetMinutes st data).1.currentCandle = some c' →
      CandleInv c' := by
  intro c' hc'
  unfold onmessage at hc'
  by_cases hmatch : data.event = "price" ∧ data.symbol = "BTC/USD"
  · rw [if_pos hmatch] at hc'
    dsimp only at hc'
    have fresh_inv : CandleInv ⟨getCandleTimestamp data.timestamp, data.price,
        data.price, data.price, data.price, data.timestamp⟩ := by
      refine ⟨?_, ?_, ?_, dvd_getCandleTimestamp _⟩ <;>
        simp [CandleInv, min_self, max_self, le_refl]
    cases hcc : st.currentCandle with
    | none =>
        rw [hcc] at hc'
        dsimp only at hc'
        injection hc' with h'
        exact h' ▸ fresh_inv
    | some c =>
        rw [hcc] at hc'
        dsimp only at hc'
        by_cases hne : c.timestamp ≠ getCandleTimestamp data.timestamp
        · rw [if_pos hne] at hc'
          injection hc' with h'
          exact h' ▸ fresh_inv
        · rw [if_neg hne] at hc'
          injection hc' with h'
          subst h'
          obtain ⟨h1, _h2, h3, h4⟩ := h c hcc
          have hlo : c.low ≤ c.open := le_trans h1 (min_le_left _ _)
          have hhi : c.open ≤ c.high := le_trans (le_max_left _ _) h3
          exact ⟨min_le_min hlo (le_refl data.price), min_le_max,
            max_le_max hhi (le_refl data.price), h4⟩
  · rw [if_neg hmatch] at hc'
    exact h c' hc'

/-- Witness for C3: the empty aggregator (hypothesis trivially discharged)
ingesting one tick. -/
theorem C3_invariant_preserved_witness :
    (∀ c, (⟨none, none, []⟩ : WsState).currentCandle = some c → CandleInv c) ∧
      (∀ c', (onmessage 0 ⟨none, none, []⟩
          ⟨"price", "BTC/USD", 123, 5⟩).1.currentCandle = some c' →
        CandleInv c') :=
  ⟨fun _ hc => Option.noConfusion hc,
    C3_invariant_preserved 0 ⟨none, none, []⟩ ⟨"price", "BTC/USD", 123, 5⟩
      (fun _ hc => Option.noConfusion hc)⟩

/-- C9: an inbound event whose tag is not `"price"` or whose symbol is not
the subscribed `"BTC/USD"` leaves the whole handler state unchanged — the
in-progress candle (all fields, `lastUpdate` included), `currentPrice` and
the series — and no update is issued to the chart series. -/
theorem C9_non_matching_ignored (offsetMinutes : ℤ) (st : WsState)
    (data : PriceEvent)
    (h : data.event ≠ "price" ∨ data.symbol ≠ "BTC/USD") :
    onmessage offsetMinutes st data = (st, none) := by
  unfold onmessage
  rw [if_neg (by tauto)]

/-- Witness for C9: a `subscribe-status` event against a non-empty state. -/
theorem C9_non_matching_ignored_witness :
    (("subscribe-status" : String) ≠ "price" ∨ ("BTC/USD" : String) ≠ "BTC/USD") ∧
      onmessage 0 ⟨some ⟨60, 1, 3, 1, 2, 65⟩, some 2, [⟨0, 1, 1, 1, 1⟩]⟩
          ⟨"subscribe-status", "BTC/USD", 66, 9⟩ =
        (⟨some ⟨60, 1, 3, 1, 2, 65⟩, some 2, [⟨0, 1, 1, 1, 1⟩]⟩, none) :=
  ⟨Or.inl (by decide),
    C9_non_matching_ignored 0 _ _ (Or.inl (by decide))⟩

/-- C7: with interval 60 and no in-progress candle, the ticks
`(t=0,p=100), (t=30,p=110), (t=59,p=90)` yield the single in-progress
candle `{open:100, high:110, low:90, close:90, bucketStart:0}`; the
subsequent tick `(t=60,p=95)` produces the fresh in-progress candle
`{open:95, high:95, low:95, close:95, bucketStart:60}`, and after the
per-tick upserts the series holds two entries: bucket 0 (now frozen — no
longer the aggregator's bucket) and bucket 60, the mutable tail. Timezone
offset 0, so chart times equal bucket starts. -/
theorem C7_aggregation_example :
    (processTicks 0 ⟨none, none, []⟩
        [⟨"price", "BTC/USD", 0, 100⟩, ⟨"price", "BTC/USD", 30, 110⟩,
          ⟨"price", "BTC/USD", 59, 90⟩]).currentCandle =
      some ⟨0, 100, 110, 90, 90, 59⟩ ∧
    processTicks 0 ⟨none, none, []⟩
        [⟨"price", "BTC/USD", 0, 100⟩, ⟨"price", "BTC/USD", 30, 110⟩,
          ⟨"price", "BTC/USD", 59, 90⟩, ⟨"price", "BTC/USD", 60, 95⟩] =
      ⟨some ⟨60, 95, 95, 95, 95, 60⟩, some 95,
        [⟨0, 100, 110, 90, 90⟩, ⟨60, 95, 95, 95, 95⟩]⟩ := by
  decide

/-- C5: when the historical response has an absent or empty `values` array
(including error payloads, which carry no `values`), the normalizer does
not run and no `setData` call is issued (`candlesSet = volumesSet = none`,
so any existing series content is left untouched); the caller enters the
error state with `data.message || data.code || "No data available"`
surfaced, and the load is not marked complete. -/
theorem C5_empty_or_error_payload (dateParse : String → Option ℤ)
    (jsParseFloat : String → JsNum) (offsetMinutes : ℤ) (resp : ApiResponse)
    (h : resp.values = none ∨ resp.values = some []) :
    loadHistoricalData dateParse jsParseFloat offsetMinutes resp =
      ⟨"Error", some (jsOr resp.message (jsOr resp.code "No data available")),
        none, none, false, none⟩ := by
  unfold loadHistoricalData
  rcases h with h | h <;> rw [h]
  rfl

/-- Witness for C5: an upstream error payload `{code: "400"}` with no
`values`; the code is surfaced. -/
theorem C5_empty_or_error_payload_witness :
    ((ApiResponse.mk none none (some "400")).values = none ∨
      (ApiResponse.mk none none (some "400")).values = some []) ∧
    loadHistoricalData dateParseM parseFloatM 0 ⟨none, none, some "400"⟩ =
      ⟨"Error", some "400", none, none, false, none⟩ :=
  ⟨Or.inl rfl,
    (C5_empty_or_error_payload dateParseM parseFloatM 0
      ⟨none, none, some "400"⟩ (Or.inl rfl)).trans (by decide)⟩

/-- C4 counterexample: a one-record batch whose `open` field `"oops"` fails
to parse (`parseFloat` gives NaN) does NOT fail the batch: the load
completes successfully and the candle set — including the malformed record,
its `open` being NaN — is delivered to the series. -/
theorem C4_counterexample :
    parseFloatM "oops" = none ∧
    (loadHistoricalData dateParseM parseFloatM 0
        ⟨some [⟨"2024-01-01 00:00:00", "oops", "2", "7", "1", "3"⟩],
          none, none⟩).isHistoricalLoaded = true ∧
    (loadHistoricalData dateParseM parseFloatM 0
        ⟨some [⟨"2024-01-01 00:00:00", "oops", "2", "7", "1", "3"⟩],
          none, none⟩).candlesSet =
      some [⟨((1704067200 : ℤ) : WithBot ℤ), none, some 2, some 7, some 1⟩] ∧
    (loadHistoricalData dateParseM parseFloatM 0
        ⟨some [⟨"2024-01-01 00:00:00", "oops", "2", "7", "1", "3"⟩],
          none, none⟩).errorMessage = none := by
  decide

/-- C4 amended: a record whose timestamp or whose numeric field fails to
parse does not abort the batch. `parseFloat`/`Date.parse` return the NaN
value instead of throwing, every record is mapped unconditionally (one
mapped candle per record, failed fields becoming NaN), the load still
succeeds with no error state, and the normalized candle set is delivered to
the series. Records whose numeric fields failed are delivered with NaN
fields; records whose *timestamp* failed are dropped by the dedup filter
(`NaN === NaN` is false) rather than rejected — the last conjunct: every
delivered candle has a parsed time. -/
theorem C4_amended_no_parse_validation (dateParse : String → Option ℤ)
    (jsParseFloat : String → JsNum) (offsetMinutes : ℤ) (resp : ApiResponse)
    (vs : List TwelveDataCandle) (hv : resp.values = some vs) (hne : vs ≠ [])
    (v : TwelveDataCandle) (_hm : v ∈ vs)
    (_hfail : jsParseFloat v.open = none ∨
      dateParse (v.datetime ++ "Z") = none) :
    (loadHistoricalData dateParse jsParseFloat offsetMinutes resp).isHistoricalLoaded
        = true ∧
    (loadHistoricalData dateParse jsParseFloat offsetMinutes resp).candlesSet =
      some (normalizeCandles dateParse jsParseFloat offsetMinutes vs) ∧
    (loadHistoricalData dateParse jsParseFloat offsetMinutes resp).errorMessage
        = none ∧
    (histCandles dateParse jsParseFloat offsetMinutes vs).length = vs.length ∧
    (∀ c ∈ normalizeCandles dateParse jsParseFloat offsetMinutes vs,
      c.time ≠ (⊥ : WithBot ℤ)) := by
  unfold loadHistoricalData
  rw [hv]
  dsimp only
  rw [if_neg (List.length_pos.mpr hne).ne']
  exact ⟨rfl, rfl, rfl, List.length_map _ _,
    normalizeCandles_time_ne_bot dateParse jsParseFloat offsetMinutes vs⟩

/-- Witness for C4 amended: a two-record batch whose first record has an
unparsable *timestamp* (`"nope"`) and whose second has an unparsable
numeric field (`"oops"`); the failure hypothesis is discharged with the
timestamp case. -/
theorem C4_amended_no_parse_validation_witness :
    (ApiResponse.mk
        (some [⟨"nope", "1", "2", "7", "1", "3"⟩,
          ⟨"2024-01-01 00:00:00", "oops", "2", "7", "1", "3"⟩])
        none none).values =
      some [⟨"nope", "1", "2", "7", "1", "3"⟩,
        ⟨"2024-01-01 00:00:00", "oops", "2", "7", "1", "3"⟩] ∧
    ([⟨"nope", "1", "2", "7", "1", "3"⟩,
        ⟨"2024-01-01 00:00:00", "oops", "2", "7", "1", "3"⟩] :
        List TwelveDataCandle) ≠ [] ∧
    (⟨"nope", "1", "2", "7", "1", "3"⟩ : TwelveDataCandle) ∈
      ([⟨"nope", "1", "2", "7", "1", "3"⟩,
        ⟨"2024-01-01 00:00:00", "oops", "2", "7", "1", "3"⟩] :
        List TwelveDataCandle) ∧
    (parseFloatM (TwelveDataCandle.mk "nope" "1" "2" "7" "1" "3").open = none ∨
      dateParseM ((TwelveDataCandle.mk "nope" "1" "2" "7" "1" "3").datetime
        ++ "Z") = none) ∧
    ((loadHistoricalData dateParseM parseFloatM 0
        ⟨some [⟨"nope", "1", "2", "7", "1", "3"⟩,
          ⟨"2024-01-01 00:00:00", "oops", "2", "7", "1", "3"⟩],
          none, none⟩).isHistoricalLoaded = true ∧
      (loadHistoricalData dateParseM parseFloatM 0
        ⟨some [⟨"nope", "1", "2", "7", "1", "3"⟩,
          ⟨"2024-01-01 00:00:00", "oops", "2", "7", "1", "3"⟩],
          none, none⟩).candlesSet =
        some (normalizeCandles dateParseM parseFloatM 0
          [⟨"nope", "1", "2", "7", "1", "3"⟩,
            ⟨"2024-01-01 00:00:00", "oops", "2", "7", "1", "3"⟩]) ∧
      (loadHistoricalData dateParseM parseFloatM 0
        ⟨some [⟨"nope", "1", "2", "7", "1", "3"⟩,
          ⟨"2024-01-01 00:00:00", "oops", "2", "7", "1", "3"⟩],
          none, none⟩).errorMessage = none ∧
      (histCandles dateParseM parseFloatM 0
        [⟨"nope", "1", "2", "7", "1", "3"⟩,
          ⟨"2024-01-01 00:00:00", "oops", "2", "7", "1", "3"⟩]).length =
        ([⟨"nope", "1", "2", "7", "1", "3"⟩,
          ⟨"2024-01-01 00:00:00", "oops", "2", "7", "1", "3"⟩] :
          List TwelveDataCandle).length ∧
      (∀ c ∈ normalizeCandles dateParseM parseFloatM 0
          [⟨"nope", "1", "2", "7", "1", "3"⟩,
            ⟨"2024-01-01 00:00:00", "oops", "2", "7", "1", "3"⟩],
        c.time ≠ (⊥ : WithBot ℤ))) :=
  ⟨rfl, by decide, List.mem_cons_self _ _, Or.inr (by decide),
    C4_amended_no_parse_validation dateParseM parseFloatM 0 _ _ rfl
      (by decide) _ (List.mem_cons_self _ _) (Or.inr (by decide))⟩

/-- C8 counterexample: a successful one-record load delivers the candle
sequence but never the volume sequence — `volumeSeries.setData(volumes)` is
commented out (source line 185), so `volumesSet = none` even though the run
succeeded. -/
theorem C8_counterexample :
    (loadHistoricalData dateParseM parseFloatM 0
        ⟨some [⟨"2024-01-01 00:00:00", "1", "2", "7", "1", "3"⟩],
          none, none⟩).isHistoricalLoaded = true ∧
    (loadHistoricalData dateParseM parseFloatM 0
        ⟨some [⟨"2024-01-01 00:00:00", "1", "2", "7", "1", "3"⟩],
          none, none⟩).candlesSet ≠ none ∧
    (loadHistoricalData dateParseM parseFloatM 0
        ⟨some [⟨"2024-01-01 00:00:00", "1", "2", "7", "1", "3"⟩],
          none, none⟩).volumesSet = none := by
  decide

/-- C8 amended: after a successful historical load only the deduplicated,
time-ordered candle sequence is handed to the Series Sink as a full
replacement; the volume-bar sequence is computed but never delivered (the
`volumeSeries.setData` call is commented out). -/
theorem C8_amended_only_candles_delivered (dateParse : String → Option ℤ)
    (jsParseFloat : String → JsNum) (offsetMinutes : ℤ) (resp : ApiResponse)
    (vs : List TwelveDataCandle) (hv : resp.values = some vs)
    (hne : vs ≠ []) :
    (loadHistoricalData dateParse jsParseFloat offsetMinutes resp).candlesSet =
      some (normalizeCandles dateParse jsParseFloat offsetMinutes vs) ∧
    (loadHistoricalData dateParse jsParseFloat offsetMinutes resp).volumesSet =
      none := by
  unfold loadHistoricalData
  rw [hv]
  dsimp only
  rw [if_neg (List.length_pos.mpr hne).ne']
  exact ⟨rfl, rfl⟩

/-- Witness for C8 amended at the counterexample's input. -/
theorem C8_amended_only_candles_delivered_witness :
    (ApiResponse.mk
        (some [⟨"2024-01-01 00:00:00", "1", "2", "7", "1", "3"⟩])
        none none).values =
      some [⟨"2024-01-01 00:00:00", "1", "2", "7", "1", "3"⟩] ∧
    ([⟨"2024-01-01 00:00:00", "1", "2", "7", "1", "3"⟩] :
        List TwelveDataCandle) ≠ [] ∧
    ((loadHistoricalData dateParseM parseFloatM 0
        ⟨some [⟨"2024-01-01 00:00:00", "1", "2", "7", "1", "3"⟩],
          none, none⟩).candlesSet =
      some (normalizeCandles dateParseM parseFloatM 0
        [⟨"2024-01-01 00:00:00", "1", "2", "7", "1", "3"⟩]) ∧
    (loadHistoricalData dateParseM parseFloatM 0
        ⟨some [⟨"2024-01-01 00:00:00", "1", "2", "7", "1", "3"⟩],
          none, none⟩).volumesSet = none) :=
  ⟨rfl, by decide,
    C8_amended_only_candles_delivered dateParseM parseFloatM 0 _ _ rfl
      (by decide)⟩

/-- C6 counterexample: two records carrying the identical (unparsable)
datetime `"nope"`. Their mapped `time` is NaN, and `NaN === NaN` is false
in JS, so the dedup filter's `findIndex` never returns either record's own
index and BOTH are dropped: zero records retained, not "exactly one, the
earlier array index winning". The drop decision is independent of the
implementation-defined sort order of NaN keys (a NaN-time item never
compares equal to any item, wherever it sits), so this outcome is
deterministic even though the sort order is not. -/
theorem C6_counterexample :
    (TwelveDataCandle.mk "nope" "1" "1" "1" "1" "1").datetime =
      (TwelveDataCandle.mk "nope" "2" "2" "2" "2" "2").datetime ∧
    (histCandles dateParseM parseFloatM 0
        [⟨"nope", "1", "1", "1", "1", "1"⟩,
          ⟨"nope", "2", "2", "2", "2", "2"⟩]).length = 2 ∧
    normalizeCandles dateParseM parseFloatM 0
        [⟨"nope", "1", "1", "1", "1", "1"⟩,
          ⟨"nope", "2", "2", "2", "2", "2"⟩] = [] ∧
    normalizeVolumes dateParseM parseFloatM 0
        [⟨"nope", "1", "1", "1", "1", "1"⟩,
          ⟨"nope", "2", "2", "2", "2", "2"⟩] = [] := by
  decide

/-- C6 amended: for batches in which every record's datetime parses, the
normalized candle and volume sequences are strictly increasing by bucket
time with no repeats, and for each time value the retained element is the
first (earliest original array index) input element carrying that time —
the stable-sort-then-keep-first-occurrence tie-break, so of two records
with identical datetime exactly the earlier-index one survives. Records
whose datetime fails to parse are dropped entirely by the dedup filter
(`NaN === NaN` is false), so for a duplicated unparsable datetime zero
records are retained (the counterexample above) — hence the `hparse`
restriction, on which the stable-sort model is also exact (a NaN key makes
the JS sort order implementation-defined). -/
theorem C6_normalizer_sorted_dedup (dateParse : String → Option ℤ)
    (jsParseFloat : String → JsNum) (offsetMinutes : ℤ)
    (vs : List TwelveDataCandle)
    (hparse : ∀ v ∈ vs, dateParse (v.datetime ++ "Z") ≠ none) :
    (normalizeCandles dateParse jsParseFloat offsetMinutes vs).Pairwise
        (fun a b => a.time < b.time) ∧
    (normalizeVolumes dateParse jsParseFloat offsetMinutes vs).Pairwise
        (fun a b => a.time < b.time) ∧
    (∀ t, (normalizeCandles dateParse jsParseFloat offsetMinutes vs).find?
        (fun c => c.time = t) =
      (histCandles dateParse jsParseFloat offsetMinutes vs).find?
        (fun c => c.time = t)) ∧
    (∀ t, (normalizeVolumes dateParse jsParseFloat offsetMinutes vs).find?
        (fun c => c.time = t) =
      (histVolumes dateParse jsParseFloat offsetMinutes vs).find?
        (fun c => c.time = t)) := by
  rw [normalizeCandles_eq_ideal dateParse jsParseFloat offsetMinutes vs hparse,
    normalizeVolumes_eq_ideal dateParse jsParseFloat offsetMinutes vs hparse]
  exact ⟨sortDedupByKey_pairwise_lt _ _, sortDedupByKey_pairwise_lt _ _,
    fun t => sortDedupByKey_find? _ t _, fun t => sortDedupByKey_find? _ t _⟩

/-- Witness for C6: a three-record batch, out of order and containing two
records with the identical datetime `00:00:00` but different fields. -/
theorem C6_normalizer_sorted_dedup_witness :
    (∀ v ∈ ([⟨"2024-01-01 00:01:00", "1", "2", "1", "2", "3"⟩,
        ⟨"2024-01-01 00:00:00", "1", "2", "1", "1", "3"⟩,
        ⟨"2024-01-01 00:00:00", "2", "4", "2", "3", "4"⟩] :
          List TwelveDataCandle),
      dateParseM (v.datetime ++ "Z") ≠ none) ∧
    ((normalizeCandles dateParseM parseFloatM 0
        [⟨"2024-01-01 00:01:00", "1", "2", "1", "2", "3"⟩,
          ⟨"2024-01-01 00:00:00", "1", "2", "1", "1", "3"⟩,
          ⟨"2024-01-01 00:00:00", "2", "4", "2", "3", "4"⟩]).Pairwise
        (fun a b => a.time < b.time) ∧
    (normalizeVolumes dateParseM parseFloatM 0
        [⟨"2024-01-01 00:01:00", "1", "2", "1", "2", "3"⟩,
          ⟨"2024-01-01 00:00:00", "1", "2", "1", "1", "3"⟩,
          ⟨"2024-01-01 00:00:00", "2", "4", "2", "3", "4"⟩]).Pairwise
        (fun a b => a.time < b.time) ∧
    (∀ t, (normalizeCandles dateParseM parseFloatM 0
        [⟨"2024-01-01 00:01:00", "1", "2", "1", "2", "3"⟩,
          ⟨"2024-01-01 00:00:00", "1", "2", "1", "1", "3"⟩,
          ⟨"2024-01-01 00:00:00", "2", "4", "2", "3", "4"⟩]).find?
        (fun c => c.time = t) =
      (histCandles dateParseM parseFloatM 0
        [⟨"2024-01-01 00:01:00", "1", "2", "1", "2", "3"⟩,
          ⟨"2024-01-01 00:00:00", "1", "2", "1", "1", "3"⟩,
          ⟨"2024-01-01 00:00:00", "2", "4", "2", "3", "4"⟩]).find?
        (fun c => c.time = t)) ∧
    (∀ t, (normalizeVolumes dateParseM parseFloatM 0
        [⟨"2024-01-01 00:01:00", "1", "2", "1", "2", "3"⟩,
          ⟨"2024-01-01 00:00:00", "1", "2", "1", "1", "3"⟩,
          ⟨"2024-01-01 00:00:00", "2", "4", "2", "3", "4"⟩]).find?
        (fun c => c.time = t) =
      (histVolumes dateParseM parseFloatM 0
        [⟨"2024-01-01 00:01:00", "1", "2", "1", "2", "3"⟩,
          ⟨"2024-01-01 00:00:00", "1", "2", "1", "1", "3"⟩,
          ⟨"2024-01-01 00:00:00", "2", "4", "2", "3", "4"⟩]).find?
        (fun c => c.time = t))) :=
  ⟨by decide,
    C6_normalizer_sorted_dedup dateParseM parseFloatM 0 _ (by decide)⟩

end LiveCandles
